import Mathlib

/-!
Verification of the patch-review synthesis engine of `rubber` (src/src/main.rs).

The Rust program is embedded shallowly: strings are Lean `String`s, and the
handful of Rust `str` primitives the program uses (`contains`, `split`,
`replace`, `trim`, `lines`, `starts_with`, `repeat`, formatting padding) are
reimplemented below by structural recursion over the character list, with the
exact semantics of the Rust standard library for the inputs the program can
see.  Network calls are parameterized: a fetch becomes an `Except` value
passed in, and the narrative-review service becomes a function from patch
text to `Except String String`.
-/

namespace Rubber

/-- Embedding of Rust `str::split` with a nonempty `&str` pattern
(leftmost, non-overlapping; a match at the end yields a final empty piece;
splitting the empty string yields one empty piece).  `fuel` bounds the
recursion; it is instantiated with the length of the input, which suffices
because every step consumes at least one character. -/
def splitFuel (sep : List Char) : Nat → List Char → List (List Char)
  | 0, s => [s]
  | fuel + 1, s =>
    if sep.isPrefixOf s && !sep.isEmpty then
      [] :: splitFuel sep fuel (s.drop sep.length)
    else
      match s with
      | [] => [[]]
      | c :: rest =>
        match splitFuel sep fuel rest with
        | [] => [[c]]
        | h :: t => (c :: h) :: t

/-- Rust `s.split(sep)` collected into a list (as the source does with
`collect()`). -/
def rustSplit (s sep : String) : List String :=
  (splitFuel sep.data s.data.length s.data).map String.mk

/-- Embedding of Rust `str::replace` with a nonempty pattern: every
leftmost non-overlapping occurrence of `pat` is replaced by `rep`. -/
def replaceFuel (pat rep : List Char) : Nat → List Char → List Char
  | 0, s => s
  | fuel + 1, s =>
    if pat.isPrefixOf s && !pat.isEmpty then
      rep ++ replaceFuel pat rep fuel (s.drop pat.length)
    else
      match s with
      | [] => []
      | c :: rest => c :: replaceFuel pat rep fuel rest

/-- Rust `s.replace(pat, rep)`. -/
def rustReplace (s pat rep : String) : String :=
  ⟨replaceFuel pat.data rep.data s.data.length s.data⟩

/-- Substring test over character lists (Rust `str::contains` with a `&str`
pattern; valid UTF-8 byte containment coincides with character-sequence
containment). -/
def containsList (pat : List Char) : List Char → Bool
  | [] => pat.isEmpty
  | c :: rest => pat.isPrefixOf (c :: rest) || containsList pat rest

/-- Rust `s.contains(pat)`. -/
def rustContains (s pat : String) : Bool :=
  containsList pat.data s.data

/-- Rust `s.starts_with(pat)` for a `&str` pattern. -/
def rustStartsWith (s pat : String) : Bool :=
  pat.data.isPrefixOf s.data

/-- Rust `s.starts_with(c)` for a `char` pattern, and also the test
`s.chars().next() == Some c`. -/
def firstCharIs (s : String) (c : Char) : Bool :=
  match s.data with
  | [] => false
  | d :: _ => d == c

/-- Rust `char::is_whitespace`: the Unicode `White_Space` property — the
ASCII whitespace characters (tab, LF, vertical tab, form feed, CR, space)
together with NEL, NBSP, the Ogham space mark, the U+2000–U+200A spaces,
the line and paragraph separators, the narrow no-break space, the medium
mathematical space and the ideographic space. -/
def rustIsWhitespace (c : Char) : Bool :=
  c.toNat == 0x09 || c.toNat == 0x0a || c.toNat == 0x0b || c.toNat == 0x0c
    || c.toNat == 0x0d || c.toNat == 0x20 || c.toNat == 0x85 || c.toNat == 0xa0
    || c.toNat == 0x1680 || (Nat.ble 0x2000 c.toNat && Nat.ble c.toNat 0x200a)
    || c.toNat == 0x2028 || c.toNat == 0x2029 || c.toNat == 0x202f
    || c.toNat == 0x205f || c.toNat == 0x3000

/-- Rust `str::trim`: drop Unicode `White_Space` characters from both
ends. -/
def rustTrim (s : String) : String :=
  ⟨((s.data.dropWhile rustIsWhitespace).reverse.dropWhile rustIsWhitespace).reverse⟩

/-- Strip one trailing carriage return (the `\r` of a `\r\n` line ending). -/
def stripCR (l : String) : String :=
  if l.data.getLast? = some '\x0d' then ⟨l.data.dropLast⟩ else l

/-- Embedding of Rust `str::lines`: split at `\n`, strip a trailing `\r`
from every piece that was terminated by a `\n`, and drop a final empty
piece (the optional terminating newline).  The last piece, when the string
does not end in `\n`, keeps a trailing `\r` — exactly as in Rust. -/
def rustLines (s : String) : List String :=
  if s.data.isEmpty then []
  else
    let parts := rustSplit s "\n"
    match parts.getLast? with
    | none => []
    | some last =>
      parts.dropLast.map stripCR ++ (if last.data.isEmpty then [] else [last])

/-- Rust `s.repeat(n)` (the source only repeats one-character strings). -/
def rustRepeatStr (s : String) (n : Nat) : String :=
  ⟨(List.replicate n s.data).flatten⟩

/-- Rust `str::len()`: the length in UTF-8 bytes (NOT characters) — the
source uses it to size the `━` padding of header lines. -/
def rustByteLen (s : String) : Nat :=
  (s.data.map Char.utf8Size).sum

/-- Rust `format!("{:<w}", s)`: pad on the right with spaces up to width
`w`; Rust counts characters for the width, and `Nat` subtraction gives the
same no-op behavior when `s` is already wider. -/
def padTo (s : String) (w : Nat) : String :=
  s ++ ⟨List.replicate (w - s.data.length) ' '⟩

/-- The output buffer of the program (`struct OutputBuffer { content: String }`):
the report document is a single append-only string. -/
structure OutputBuffer where
  content : String
deriving DecidableEq

namespace OutputBuffer

/-- `OutputBuffer::new()` (via `Default`). -/
def new : OutputBuffer := ⟨""⟩

/-- `add_line`: push the line then a newline. -/
def add_line (b : OutputBuffer) (line : String) : OutputBuffer :=
  ⟨b.content ++ line ++ "\n"⟩

/-- `add_separator`: a line of `count` copies of `ch`. -/
def add_separator (b : OutputBuffer) (ch : Char) (count : Nat) : OutputBuffer :=
  b.add_line (rustRepeatStr ⟨[ch]⟩ count)

/-- `add_header`: a blank line, then `┏━━ <text> <padding>` where the
padding is `76 - text.len()` (byte length, saturating) box-drawing dashes. -/
def add_header (b : OutputBuffer) (text : String) : OutputBuffer :=
  (b.add_line "").add_line ("┏━━ " ++ text ++ " " ++ rustRepeatStr "━" (76 - rustByteLen text))

/-- `add_section`: `┣━━ <text> <padding>`. -/
def add_section (b : OutputBuffer) (text : String) : OutputBuffer :=
  b.add_line ("┣━━ " ++ text ++ " " ++ rustRepeatStr "━" (76 - rustByteLen text))

/-- `add_box_inner_content`: each line of `content` prefixed by `┃  `. -/
def add_box_inner_content (b : OutputBuffer) (content : String) : OutputBuffer :=
  (rustLines content).foldl (fun b line => b.add_line ("┃  " ++ line)) b

/-- `add_box_content`: the inner content between two bare `┃` lines. -/
def add_box_content (b : OutputBuffer) (content : String) : OutputBuffer :=
  ((b.add_line "┃").add_box_inner_content content).add_line "┃"

/-- `add_diff_header`: a blank line then `┏━━ Diff: <filename> <padding>`
with `70 - filename.len()` (byte length) dashes. -/
def add_diff_header (b : OutputBuffer) (filename : String) : OutputBuffer :=
  (b.add_line "").add_line
    ("┏━━ Diff: " ++ filename ++ " " ++ rustRepeatStr "━" (70 - rustByteLen filename))

/-- One rendered diff line: additions are wrapped in the green ANSI escape,
removals in the red one, judging by the first character of the line. -/
def diffLine (line : String) : String :=
  match line.data with
  | '+' :: _ => "┃  \x1b[32m" ++ line ++ "\x1b[0m"
  | '-' :: _ => "┃  \x1b[31m" ++ line ++ "\x1b[0m"
  | _ => "┃  " ++ line

/-- `add_diff_content`: every line of the patch, colored by `diffLine`. -/
def add_diff_content (b : OutputBuffer) (content : String) : OutputBuffer :=
  (rustLines content).foldl (fun b line => b.add_line (diffLine line)) b

/-- `add_diff_separator`: the fixed closing rule. -/
def add_diff_separator (b : OutputBuffer) : OutputBuffer :=
  b.add_line "┗━━━━━━━━━━━━━━━━━━━━━━━━━━━━━━━━━━━━━━━━━━━━━━━━━━━━━━━━━━━━━━━━━━━━━━━━━━━━━━━"

/-- Reading the document out: `main` prints `output.content`; rendering is
the pure projection of the accumulated content. -/
def render (b : OutputBuffer) : String := b.content

end OutputBuffer

/-- GitHub user (`struct User`). -/
structure User where
  login : String
deriving DecidableEq

/-- PR discussion comment (`struct Comment`). -/
structure Comment where
  id : Nat
  user : User
  created_at : String
  body : String
deriving DecidableEq

/-- One changed file of the PR (`struct FileChange`); `patch` is absent when
the hosting API omits it. -/
structure FileChange where
  filename : String
  status : String
  additions : Nat
  deletions : Nat
  changes : Nat
  patch : Option String
deriving DecidableEq

/-- PR metadata (`struct PullRequestDetail`); `files` is filled in by the
second fetch. -/
structure PullRequestDetail where
  title : String
  body : Option String
  html_url : String
  user : User
  created_at : String
  comments_url : String
  files : List FileChange
deriving DecidableEq

/-- The addition count of `analyze_patch`:
`patch.lines().filter(|l| l.starts_with('+')).count()`. -/
def diffAdditions (patch : String) : Nat :=
  ((rustLines patch).filter (fun l => firstCharIs l '+')).length

/-- The deletion count of `analyze_patch`:
`patch.lines().filter(|l| l.starts_with('-')).count()`. -/
def diffDeletions (patch : String) : Nat :=
  ((rustLines patch).filter (fun l => firstCharIs l '-')).length

/-- The metrics line `analyze_patch` puts in a box:
`Changed {} lines ({} additions, {} deletions)`. -/
def metricsLine (patch : String) : String :=
  "Changed " ++ toString (diffAdditions patch + diffDeletions patch) ++ " lines ("
    ++ toString (diffAdditions patch) ++ " additions, "
    ++ toString (diffDeletions patch) ++ " deletions)"

/-- Definition following the claim's words (NOT the source): additions
counted as lines whose first character is `+` excluding the `+++` header
line.  Kept only to compare against `diffAdditions`. -/
def specDiffAdditions (patch : String) : Nat :=
  ((rustLines patch).filter (fun l => firstCharIs l '+' && !rustStartsWith l "+++")).length

/-- Definition following the claim's words (NOT the source): deletions
counted as lines whose first character is `-` excluding the `---` header
line.  Kept only to compare against `diffDeletions`. -/
def specDiffDeletions (patch : String) : Nat :=
  ((rustLines patch).filter (fun l => firstCharIs l '-' && !rustStartsWith l "---")).length

/-- Rule 1 message (outstanding-work markers). -/
def msgTodo : String := "Outstanding TODOs/FIXMEs should be addressed before merging"

/-- Rule 2 message (debug output). -/
def msgDebug : String := "Remove debug print statements before merging"

/-- Rule 3 message (unchecked unwraps). -/
def msgUnwrap : String := "Replace unwrap() calls with proper error handling"

/-- Rule 4 message (expect with message). -/
def msgExpect : String := "Consider replacing expect() with more graceful error handling"

/-- Rule 5 message (unconditional crash). -/
def msgPanic : String := "Consider replacing panic! with Result/Option for graceful error handling"

/-- Rule 6 message (cloning). -/
def msgClone : String := "Review clone() usage - consider using references where possible"

/-- Rule 7 message (heap boxing). -/
def msgBox : String := "Verify if heap allocation via Box is necessary"

/-- Rule 8 message (unsized vector construction). -/
def msgVecCapacity : String := "Consider using Vec::with_capacity() if the size is known"

/-- Rule 9 message (mutual-exclusion lock). -/
def msgMutex : String := "Consider if RwLock would be more appropriate than Mutex"

/-- Rule 10 message (awaits over a sequence collection). -/
def msgAwaitVec : String :=
  "Review concurrent operations on Vec - consider using join_all() for parallel execution"

/-- Rule 11 message (unsafe-code marker). -/
def msgSafety : String := "Unsafe block detected - ensure safety guarantees are documented"

/-- Rule 12 message (raw pointers). -/
def msgRawPtr : String := "Raw pointer usage detected - verify memory safety"

/-- Rule 13 message (new functions without tests). -/
def msgTests : String := "New functions added without corresponding tests"

/-- The 13 heuristic messages in the order the source pushes them. -/
def ruleMessages : List String :=
  [msgTodo, msgDebug, msgUnwrap, msgExpect, msgPanic, msgClone, msgBox,
   msgVecCapacity, msgMutex, msgAwaitVec, msgSafety, msgRawPtr, msgTests]

/-- The `feedback` vector of `analyze_patch`: the thirteen independent
substring / per-line predicates of the source, pushed in source order. -/
def heuristicFindings (patch : String) : List String :=
  (if rustContains patch "TODO" || rustContains patch "FIXME" then [msgTodo] else [])
  ++ (if rustContains patch "println!" || rustContains patch "dbg!" then [msgDebug] else [])
  ++ (if rustContains patch "unwrap()" then [msgUnwrap] else [])
  ++ (if rustContains patch "expect(" then [msgExpect] else [])
  ++ (if rustContains patch "panic!" then [msgPanic] else [])
  ++ (if rustContains patch "Clone" || rustContains patch "clone()" then [msgClone] else [])
  ++ (if rustContains patch "Box::new" then [msgBox] else [])
  ++ (if rustContains patch "Vec::new()" && !rustContains patch "with_capacity"
      then [msgVecCapacity] else [])
  ++ (if rustContains patch "Mutex" && !rustContains patch "RwLock" then [msgMutex] else [])
  ++ (if rustContains patch ".await" && rustContains patch "Vec" then [msgAwaitVec] else [])
  ++ (if rustContains patch "unsafe" then [msgSafety] else [])
  ++ (if rustContains patch "as_ptr" || rustContains patch "as_mut_ptr" then [msgRawPtr] else [])
  ++ (if ((rustLines patch).any fun l => rustContains l "fn " && !rustContains l "test")
        && !rustContains patch "#[test]"
      then [msgTests] else [])

/-- The tail of `analyze_patch`: when the feedback vector is nonempty,
append an `AI Suggestions` section whose box holds the findings joined by
newlines. -/
def appendHeuristics (patch : String) (b : OutputBuffer) : OutputBuffer :=
  let feedback := heuristicFindings patch
  if feedback.isEmpty then b
  else (b.add_section "AI Suggestions").add_box_content (String.intercalate "\n" feedback)

/-- The narrative part of `analyze_patch`: split the review on `"## "` and,
for each piece, emit the matching section with the piece's body — the
recognized header stripped and the remainder trimmed. -/
def appendNarrative (review : String) (b : OutputBuffer) : OutputBuffer :=
  (rustSplit review "## ").foldl
    (fun b piece =>
      if rustStartsWith piece "Summary" then
        (b.add_section "Change Summary").add_box_content
          (rustTrim (rustReplace piece "Summary\n" ""))
      else if rustStartsWith piece "Feedback" then
        (b.add_section "AI Suggestions").add_box_content
          (rustTrim (rustReplace piece "Feedback\n" ""))
      else if rustStartsWith piece "Additional Context Needed" then
        (b.add_section "Additional Context Needed").add_box_content
          (rustTrim (rustReplace piece "Additional Context Needed\n" ""))
      else b)
    b

/-- `analyze_patch`, with the narrative-review network call abstracted into
its `Except` outcome.  The Rust function returns `Result` but never an
error (the review failure is swallowed by `if let Ok`), so the embedding is
total. -/
def analyze_patch (patch : String) (review : Except String String)
    (b : OutputBuffer) : OutputBuffer :=
  let b := b.add_box_content (metricsLine patch)
  let b :=
    match review with
    | Except.ok r => appendNarrative r b
    | Except.error _ => b
  appendHeuristics patch b

/-- The header text of one comment's section:
`Author: {} (at {})`. -/
def commentSectionTitle (c : Comment) : String :=
  "Author: " ++ c.user.login ++ " (at " ++ c.created_at ++ ")"

/-- `display_comments`. -/
def display_comments (comments : List Comment) (b : OutputBuffer) : OutputBuffer :=
  if comments.isEmpty then
    b.add_box_content "No comments found for this PR."
  else
    comments.foldl
      (fun b c => (b.add_section (commentSectionTitle c)).add_box_content c.body) b

/-- `get_pr_details`, with the three network fetches abstracted into their
`Except` outcomes; each `?` of the source is a monadic bind, so the first
failure among (PR metadata, file list, comments) aborts the whole call. -/
def get_pr_details (prFetch : Except String PullRequestDetail)
    (filesFetch : Except String (List FileChange))
    (commentsFetch : Except String (List Comment)) :
    Except String (PullRequestDetail × List Comment) := do
  let details ← prFetch
  let files ← filesFetch
  let comments ← commentsFetch
  Except.ok ({ details with files := files }, comments)

/-- The file summary table's header row
(`┃  {:<50} {:<10} {:<10} {:<10}` of the captions). -/
def fileTableHeaderLine : String :=
  "┃  " ++ padTo "Filename" 50 ++ " " ++ padTo "Status" 10 ++ " "
    ++ padTo "Additions" 10 ++ " " ++ padTo "Deletions" 10

/-- One file's summary table row. -/
def fileRowLine (f : FileChange) : String :=
  "┃  " ++ padTo f.filename 50 ++ " " ++ padTo f.status 10 ++ " "
    ++ padTo (toString f.additions) 10 ++ " " ++ padTo (toString f.deletions) 10

/-- The second loop of `display_pr_details`: for each file WITH a patch,
a separator between consecutive diffs (the `first` flag), the diff header,
the colored diff, a `Static Analysis` section and the patch analysis;
files without a patch are skipped entirely. -/
def fileDiffLoop (reviews : String → Except String String) :
    List FileChange → Bool → OutputBuffer → OutputBuffer
  | [], _, b => b
  | f :: rest, first, b =>
    match f.patch with
    | none => fileDiffLoop reviews rest first b
    | some patch =>
      let b := if !first then b.add_diff_separator else b
      let b := b.add_diff_header f.filename
      let b := b.add_diff_content patch
      let b := b.add_section "Static Analysis"
      let b := analyze_patch patch (reviews patch) b
      fileDiffLoop reviews rest false b

/-- The `Description` block of `display_pr_details`: the body when present
and not whitespace-only, the explicit placeholder otherwise. -/
def descriptionPart (body : Option String) (b : OutputBuffer) : OutputBuffer :=
  match body with
  | some s =>
    if !(rustTrim s).data.isEmpty then b.add_box_content s
    else b.add_box_content "No description provided."
  | none => b.add_box_content "No description provided."

/-- The `Modified Files` block of `display_pr_details`: the section line,
then either the empty-state box or the summary table (caption row, rule,
one row per file — patch or not) followed by the per-patch diff loop. -/
def filesSection (files : List FileChange) (reviews : String → Except String String)
    (b : OutputBuffer) : OutputBuffer :=
  if files.isEmpty then
    (b.add_section "Modified Files").add_box_content "No files modified in this PR."
  else
    fileDiffLoop reviews files true
      ((files.foldl (fun b f => b.add_line (fileRowLine f))
        (((b.add_section "Modified Files").add_line fileTableHeaderLine).add_line
          ("┃  " ++ rustRepeatStr "─" 80))).add_diff_separator)

/-- `display_pr_details`, with the narrative-review service abstracted as
`reviews`: title header, description section, modified-files block, then
the comments header and block, with separators and blank lines as in the
source. -/
def display_pr_details (details : PullRequestDetail) (comments : List Comment)
    (reviews : String → Except String String) (b : OutputBuffer) : OutputBuffer :=
  ((display_comments comments
      ((((filesSection details.files reviews
            (descriptionPart details.body
              ((b.add_header details.title).add_section
                "Description"))).add_diff_separator).add_line "").add_header
        "Comments")).add_diff_separator).add_line ""

/-- The PR-number path of `run()`: a fresh buffer, then either the rendered
report or the fixed error string when `get_pr_details` failed. -/
def runPrRequest (prFetch : Except String PullRequestDetail)
    (filesFetch : Except String (List FileChange))
    (commentsFetch : Except String (List Comment))
    (reviews : String → Except String String) : String :=
  match get_pr_details prFetch filesFetch commentsFetch with
  | Except.ok (details, comments) =>
    (display_pr_details details comments reviews OutputBuffer.new).content
  | Except.error _ => "Error fetching PR details."

/-! ### Append characterizations of the buffer operations -/

/-- Concatenation of a list of strings (used to describe folds of
`add_line`). -/
def concatStrs : List String → String
  | [] => ""
  | s :: rest => s ++ concatStrs rest

/-- The text `add_line` appends. -/
def lineStr (l : String) : String := l ++ "\n"

/-- The text `add_header` appends. -/
def headerStr (text : String) : String :=
  lineStr "" ++ lineStr ("┏━━ " ++ text ++ " " ++ rustRepeatStr "━" (76 - rustByteLen text))

/-- The text `add_section` appends. -/
def sectionStr (text : String) : String :=
  lineStr ("┣━━ " ++ text ++ " " ++ rustRepeatStr "━" (76 - rustByteLen text))

/-- The text `add_box_content` appends. -/
def boxStr (content : String) : String :=
  lineStr "┃" ++ concatStrs ((rustLines content).map fun l => lineStr ("┃  " ++ l)) ++ lineStr "┃"

/-- The text `add_diff_header` appends. -/
def diffHeaderStr (filename : String) : String :=
  lineStr "" ++
    lineStr ("┏━━ Diff: " ++ filename ++ " " ++ rustRepeatStr "━" (70 - rustByteLen filename))

/-- The text `add_diff_content` appends. -/
def diffContentStr (content : String) : String :=
  concatStrs ((rustLines content).map fun l => lineStr (OutputBuffer.diffLine l))

/-- The text `add_diff_separator` appends. -/
def diffSepStr : String :=
  lineStr "┗━━━━━━━━━━━━━━━━━━━━━━━━━━━━━━━━━━━━━━━━━━━━━━━━━━━━━━━━━━━━━━━━━━━━━━━━━━━━━━━"

@[simp]
theorem add_line_content (b : OutputBuffer) (l : String) :
    (b.add_line l).content = b.content ++ lineStr l := by
  simp [OutputBuffer.add_line, lineStr, String.append_assoc]

theorem foldl_add_line_content {α : Type} (g : α → String) (l : List α) (b : OutputBuffer) :
    (l.foldl (fun b x => b.add_line (g x)) b).content
      = b.content ++ concatStrs (l.map fun x => lineStr (g x)) := by
  induction l generalizing b with
  | nil => simp [concatStrs, String.append_empty]
  | cons x xs ih => simp [ih, concatStrs, String.append_assoc]

@[simp]
theorem add_separator_content (b : OutputBuffer) (ch : Char) (n : Nat) :
    (b.add_separator ch n).content = b.content ++ lineStr (rustRepeatStr ⟨[ch]⟩ n) := by
  simp [OutputBuffer.add_separator]

@[simp]
theorem add_header_content (b : OutputBuffer) (text : String) :
    (b.add_header text).content = b.content ++ headerStr text := by
  simp [OutputBuffer.add_header, headerStr, String.append_assoc]

@[simp]
theorem add_section_content (b : OutputBuffer) (text : String) :
    (b.add_section text).content = b.content ++ sectionStr text := by
  simp [OutputBuffer.add_section, sectionStr]

@[simp]
theorem add_box_content_content (b : OutputBuffer) (content : String) :
    (b.add_box_content content).content = b.content ++ boxStr content := by
  simp [OutputBuffer.add_box_content, OutputBuffer.add_box_inner_content, boxStr,
    foldl_add_line_content, String.append_assoc]

@[simp]
theorem add_diff_header_content (b : OutputBuffer) (filename : String) :
    (b.add_diff_header filename).content = b.content ++ diffHeaderStr filename := by
  simp [OutputBuffer.add_diff_header, diffHeaderStr, String.append_assoc]

@[simp]
theorem add_diff_content_content (b : OutputBuffer) (content : String) :
    (b.add_diff_content content).content = b.content ++ diffContentStr content := by
  simp [OutputBuffer.add_diff_content, diffContentStr, foldl_add_line_content]

@[simp]
theorem add_diff_separator_content (b : OutputBuffer) :
    b.add_diff_separator.content = b.content ++ diffSepStr := by
  simp [OutputBuffer.add_diff_separator, diffSepStr]

/-! ### Append-only monotonicity -/

/-- `f` only appends to the buffer: the old content is untouched as a
prefix of the new content. -/
def Extends (f : OutputBuffer → OutputBuffer) : Prop :=
  ∀ b : OutputBuffer, ∃ t, (f b).content = b.content ++ t

theorem extends_id : Extends (fun b => b) :=
  fun b => ⟨"", (String.append_empty b.content).symm⟩

theorem Extends.trans {f g : OutputBuffer → OutputBuffer}
    (hf : Extends f) (hg : Extends g) : Extends (fun b => g (f b)) := by
  intro b
  obtain ⟨t₁, h₁⟩ := hf b
  obtain ⟨t₂, h₂⟩ := hg (f b)
  exact ⟨t₁ ++ t₂, by rw [h₂, h₁, String.append_assoc]⟩

theorem extends_of_append {f : OutputBuffer → OutputBuffer}
    (g : String) (h : ∀ b, (f b).content = b.content ++ g) : Extends f :=
  fun b => ⟨g, h b⟩

theorem extends_ite {f g : OutputBuffer → OutputBuffer} (c : Prop) [Decidable c]
    (hf : Extends f) (hg : Extends g) : Extends (fun b => if c then f b else g b) := by
  intro b
  by_cases h : c <;> simp [h] <;> [exact hf b; exact hg b]

theorem extends_add_line (l : String) : Extends (fun b => b.add_line l) :=
  extends_of_append (lineStr l) (fun b => add_line_content b l)

theorem extends_add_section (s : String) : Extends (fun b => b.add_section s) :=
  extends_of_append (sectionStr s) (fun b => add_section_content b s)

theorem extends_add_box_content (s : String) : Extends (fun b => b.add_box_content s) :=
  extends_of_append (boxStr s) (fun b => add_box_content_content b s)

theorem extends_add_diff_separator : Extends (fun b => b.add_diff_separator) :=
  extends_of_append diffSepStr add_diff_separator_content

theorem extends_foldl {α : Type} (g : OutputBuffer → α → OutputBuffer)
    (h : ∀ x, Extends (fun b => g b x)) (l : List α) :
    Extends (fun b => l.foldl g b) := by
  induction l with
  | nil => exact extends_id
  | cons x xs ih => exact (h x).trans ih

theorem extends_appendNarrative (review : String) : Extends (appendNarrative review) := by
  unfold appendNarrative
  refine extends_foldl _ (fun piece => ?_) _
  by_cases h₁ : rustStartsWith piece "Summary" = true
  · simpa [h₁] using (extends_add_section _).trans (extends_add_box_content _)
  by_cases h₂ : rustStartsWith piece "Feedback" = true
  · simpa [h₁, h₂] using (extends_add_section _).trans (extends_add_box_content _)
  by_cases h₃ : rustStartsWith piece "Additional Context Needed" = true
  · simpa [h₁, h₂, h₃] using (extends_add_section _).trans (extends_add_box_content _)
  · simpa [h₁, h₂, h₃] using extends_id

/-- What `appendHeuristics` appends, as a single string. -/
def heuristicsStr (patch : String) : String :=
  if (heuristicFindings patch).isEmpty then ""
  else sectionStr "AI Suggestions" ++ boxStr (String.intercalate "\n" (heuristicFindings patch))

theorem appendHeuristics_content (patch : String) (b : OutputBuffer) :
    (appendHeuristics patch b).content = b.content ++ heuristicsStr patch := by
  unfold appendHeuristics heuristicsStr
  by_cases h : (heuristicFindings patch).isEmpty <;>
    simp [h, String.append_assoc, String.append_empty]

theorem extends_appendHeuristics (patch : String) : Extends (appendHeuristics patch) :=
  extends_of_append _ (appendHeuristics_content patch)

theorem extends_analyze_patch (patch : String) (review : Except String String) :
    Extends (analyze_patch patch review) := by
  intro b
  unfold analyze_patch
  cases review with
  | ok r =>
    obtain ⟨t, ht⟩ := extends_appendNarrative r (b.add_box_content (metricsLine patch))
    refine ⟨boxStr (metricsLine patch) ++ t ++ heuristicsStr patch, ?_⟩
    rw [appendHeuristics_content, ht, add_box_content_content]
    simp [String.append_assoc]
  | error e =>
    refine ⟨boxStr (metricsLine patch) ++ heuristicsStr patch, ?_⟩
    rw [appendHeuristics_content, add_box_content_content, String.append_assoc]

theorem extends_display_comments (comments : List Comment) :
    Extends (display_comments comments) := by
  unfold display_comments
  by_cases h : comments.isEmpty
  · simpa [h] using extends_add_box_content _
  · simpa [h] using extends_foldl _
      (fun c => (extends_add_section _).trans (extends_add_box_content _)) comments

theorem extends_fileDiffLoop (reviews : String → Except String String)
    (files : List FileChange) (first : Bool) :
    Extends (fileDiffLoop reviews files first) := by
  induction files generalizing first with
  | nil => exact extends_id
  | cons f rest ih =>
    intro b
    cases hp : f.patch with
    | none => simpa [fileDiffLoop, hp] using ih first b
    | some patch =>
      simp only [fileDiffLoop, hp]
      set b₁ := if !first then b.add_diff_separator else b with hb₁
      have h₁ : ∃ t, b₁.content = b.content ++ t := by
        rw [hb₁]
        by_cases hf : first = true
        · exact ⟨"", by simp [hf, String.append_empty]⟩
        · exact ⟨diffSepStr, by simp [hf]⟩
      obtain ⟨t₁, ht₁⟩ := h₁
      obtain ⟨t₂, ht₂⟩ := extends_analyze_patch patch (reviews patch)
        (((b₁.add_diff_header f.filename).add_diff_content patch).add_section "Static Analysis")
      obtain ⟨t₃, ht₃⟩ := ih false
        (analyze_patch patch (reviews patch)
          (((b₁.add_diff_header f.filename).add_diff_content patch).add_section "Static Analysis"))
      refine ⟨t₁ ++ (diffHeaderStr f.filename ++ diffContentStr patch
        ++ sectionStr "Static Analysis" ++ t₂ ++ t₃), ?_⟩
      rw [ht₃, ht₂]
      simp [ht₁, String.append_assoc]

/-! ### Occurrence of a string in the buffer -/

/-- `x` occurs (contiguously) somewhere in the accumulated content. -/
def Appears (x : String) (b : OutputBuffer) : Prop :=
  ∃ pre post, b.content = pre ++ x ++ post

theorem Appears.mono {f : OutputBuffer → OutputBuffer} {x : String} {b : OutputBuffer}
    (hf : Extends f) (h : Appears x b) : Appears x (f b) := by
  obtain ⟨pre, post, hb⟩ := h
  obtain ⟨t, ht⟩ := hf b
  exact ⟨pre, post ++ t, by rw [ht, hb]; simp [String.append_assoc]⟩

theorem appears_appended {b : OutputBuffer} {x t : String}
    (h : t = x ∨ ∃ u v, t = u ++ x ++ v) :
    Appears x ⟨b.content ++ t⟩ := by
  rcases h with rfl | ⟨u, v, rfl⟩
  · exact ⟨b.content, "", by simp [String.append_assoc, String.append_empty]⟩
  · exact ⟨b.content ++ u, v, by simp [String.append_assoc]⟩

theorem appears_of_tail {b : OutputBuffer} {s x : String} (h : b.content = s ++ x) :
    Appears x b :=
  ⟨s, "", by rw [h, String.append_assoc, String.append_empty]⟩

theorem appears_of_middle {b : OutputBuffer} {s t u v x : String}
    (h : b.content = s ++ t) (ht : t = u ++ x ++ v) : Appears x b :=
  ⟨s ++ u, v, by rw [h, ht]; simp [String.append_assoc]⟩

theorem concatStrs_mem {α : Type} (g : α → String) {c : α} :
    ∀ {cs : List α}, c ∈ cs → ∃ u v, concatStrs (cs.map g) = u ++ g c ++ v := by
  intro cs h
  induction cs with
  | nil => cases h
  | cons d rest ih =>
    rcases List.mem_cons.mp h with rfl | hr
    · exact ⟨"", concatStrs (rest.map g), by
        simp [concatStrs, String.empty_append]⟩
    · obtain ⟨u, v, hu⟩ := ih hr
      exact ⟨g d ++ u, v, by simp [concatStrs, hu, String.append_assoc]⟩

theorem extends_descriptionPart (body : Option String) : Extends (descriptionPart body) := by
  intro b
  cases body with
  | none => exact ⟨boxStr "No description provided.", by simp [descriptionPart]⟩
  | some s =>
    by_cases h : (rustTrim s).data.isEmpty
    · exact ⟨boxStr "No description provided.", by simp [descriptionPart, h]⟩
    · exact ⟨boxStr s, by simp [descriptionPart, h]⟩

theorem extends_filesSection (files : List FileChange)
    (reviews : String → Except String String) : Extends (filesSection files reviews) := by
  intro b
  unfold filesSection
  by_cases h : files.isEmpty
  · exact ⟨sectionStr "Modified Files" ++ boxStr "No files modified in this PR.", by
      simp [h, String.append_assoc]⟩
  · rw [if_neg h]
    obtain ⟨t₁, ht₁⟩ := extends_foldl (fun b f => b.add_line (fileRowLine f))
      (fun f => extends_add_line (fileRowLine f)) files
      (((b.add_section "Modified Files").add_line fileTableHeaderLine).add_line
        ("┃  " ++ rustRepeatStr "─" 80))
    obtain ⟨t₂, ht₂⟩ := extends_fileDiffLoop reviews files true
      ((files.foldl (fun b f => b.add_line (fileRowLine f))
        (((b.add_section "Modified Files").add_line fileTableHeaderLine).add_line
          ("┃  " ++ rustRepeatStr "─" 80))).add_diff_separator)
    refine ⟨sectionStr "Modified Files" ++ lineStr fileTableHeaderLine
      ++ lineStr ("┃  " ++ rustRepeatStr "─" 80) ++ t₁ ++ diffSepStr ++ t₂, ?_⟩
    rw [ht₂]
    simp [ht₁, String.append_assoc]

/-- The whole of `display_pr_details` after the `Description` block, as one
appending transformation of the buffer. -/
theorem extends_prTail (files : List FileChange) (comments : List Comment)
    (reviews : String → Except String String) :
    Extends (fun b =>
      ((display_comments comments
          ((((filesSection files reviews b).add_diff_separator).add_line "").add_header
            "Comments")).add_diff_separator).add_line "") := by
  intro b
  obtain ⟨t₁, ht₁⟩ := extends_filesSection files reviews b
  obtain ⟨t₂, ht₂⟩ := extends_display_comments comments
    ((((filesSection files reviews b).add_diff_separator).add_line "").add_header "Comments")
  refine ⟨t₁ ++ diffSepStr ++ lineStr "" ++ headerStr "Comments" ++ t₂
    ++ diffSepStr ++ lineStr "", ?_⟩
  simp [ht₂, ht₁, String.append_assoc]

/-- `analyze_patch` always starts its output with the diff-metrics box. -/
theorem analyze_patch_head (patch : String) (review : Except String String)
    (b : OutputBuffer) :
    ∃ t, (analyze_patch patch review b).content
      = b.content ++ (boxStr (metricsLine patch) ++ t) := by
  unfold analyze_patch
  cases review with
  | ok r =>
    obtain ⟨t, ht⟩ := extends_appendNarrative r (b.add_box_content (metricsLine patch))
    refine ⟨t ++ heuristicsStr patch, ?_⟩
    rw [appendHeuristics_content, ht]
    simp [String.append_assoc]
  | error e =>
    refine ⟨heuristicsStr patch, ?_⟩
    rw [appendHeuristics_content]
    simp [String.append_assoc]

theorem comments_foldl_content (cs : List Comment) (b : OutputBuffer) :
    (cs.foldl (fun b c => (b.add_section (commentSectionTitle c)).add_box_content c.body)
        b).content
      = b.content
        ++ concatStrs (cs.map fun c => sectionStr (commentSectionTitle c) ++ boxStr c.body) := by
  induction cs generalizing b with
  | nil => simp [concatStrs, String.append_empty]
  | cons c rest ih => simp [ih, concatStrs, String.append_assoc]

theorem display_comments_nil (b : OutputBuffer) :
    display_comments [] b = b.add_box_content "No comments found for this PR." := rfl

theorem display_comments_cons_content (c : Comment) (cs : List Comment) (b : OutputBuffer) :
    (display_comments (c :: cs) b).content
      = b.content
        ++ concatStrs ((c :: cs).map fun c => sectionStr (commentSectionTitle c) ++ boxStr c.body) := by
  unfold display_comments
  rw [if_neg (by simp)]
  exact comments_foldl_content (c :: cs) b

/-- Skipping files without a patch: the diff/analysis loop behaves exactly
as if those files were absent. -/
theorem fileDiffLoop_filterEq (reviews : String → Except String String) :
    ∀ (files : List FileChange) (first : Bool) (b : OutputBuffer),
      fileDiffLoop reviews files first b
        = fileDiffLoop reviews (files.filter fun f => f.patch.isSome) first b := by
  intro files
  induction files with
  | nil => intro first b; rfl
  | cons f rest ih =>
    intro first b
    cases hp : f.patch with
    | none => simp [fileDiffLoop, hp, List.filter, Option.isSome, ih first b]
    | some patch => simp [fileDiffLoop, hp, List.filter, Option.isSome, fun b => ih false b]

/-- Every file of the loop that carries a patch gets a contiguous diff
header, diff body, `Static Analysis` section line and diff-metrics box. -/
theorem fileDiffLoop_appears (reviews : String → Except String String)
    {f : FileChange} {patch : String} :
    ∀ (files : List FileChange) (first : Bool) (b : OutputBuffer),
      f ∈ files → f.patch = some patch →
      Appears (diffHeaderStr f.filename ++ diffContentStr patch
        ++ sectionStr "Static Analysis" ++ boxStr (metricsLine patch))
        (fileDiffLoop reviews files first b) := by
  intro files
  induction files with
  | nil => intro first b h; cases h
  | cons g rest ih =>
    intro first b hmem hp
    rcases List.mem_cons.mp hmem with rfl | hr
    · simp only [fileDiffLoop, hp]
      refine Appears.mono (extends_fileDiffLoop reviews rest false) ?_
      obtain ⟨t, ht⟩ := analyze_patch_head patch (reviews patch)
        ((((if !first then b.add_diff_separator else b).add_diff_header
          f.filename).add_diff_content patch).add_section "Static Analysis")
      refine ⟨(if !first then b.add_diff_separator else b).content, t, ?_⟩
      rw [ht]
      simp [String.append_assoc]
    · cases hg : g.patch with
      | none => simpa [fileDiffLoop, hg] using ih first b hr hp
      | some q => simpa [fileDiffLoop, hg] using ih false _ hr hp

/-- Membership in a one-element conditional list. -/
theorem mem_ite_singleton {α : Type} (a m : α) (c : Prop) [Decidable c] :
    (a ∈ if c then [m] else []) ↔ c ∧ a = m := by
  split <;> simp_all

/-- A one-element conditional list is a sublist of the one-element list. -/
theorem ite_singleton_sublist {α : Type} (c : Prop) [Decidable c] (m : α) :
    List.Sublist (if c then [m] else []) [m] := by
  split <;> simp

theorem extends_add_header (s : String) : Extends (fun b => b.add_header s) :=
  extends_of_append (headerStr s) (fun b => add_header_content b s)

/-! ### Concrete sample data for counterexamples and witnesses -/

/-- A sample user. -/
def sampleUser : User := ⟨"alice"⟩

/-- A sample comment. -/
def sampleComment : Comment := ⟨1, sampleUser, "2024-01-02T00:00:00Z", "looks good"⟩

/-- A sample changed file whose patch is present. -/
def sampleFile : FileChange := ⟨"a.rs", "modified", 1, 0, 1, some "+x"⟩

/-- A sample PR without description, files or comments. -/
def sampleDetail : PullRequestDetail :=
  ⟨"Title", none, "url", sampleUser, "2024-01-01T00:00:00Z", "curl", []⟩

/-- A sample PR with one changed file. -/
def sampleDetailWithFile : PullRequestDetail :=
  ⟨"Title", none, "url", sampleUser, "2024-01-01T00:00:00Z", "curl", [sampleFile]⟩

/-- A sample PR with a nonblank description body. -/
def sampleDetailWithBody : PullRequestDetail :=
  ⟨"Title", some "hello", "url", sampleUser, "2024-01-01T00:00:00Z", "curl", []⟩

/-- A narrative-review service that always fails. -/
def noReviews : String → Except String String :=
  fun _ => Except.error "review service unavailable"

/-! ### The claims -/

/-- C1, counterexample: the source counts EVERY line whose first character
is `+` or `-`, including the `+++` and `---` diff header lines, so on a
patch that carries those header lines the computed counts differ from the
claimed header-excluding counts. -/
theorem C1_counterexample :
    diffAdditions "+++ b/main.rs\n--- a/main.rs\n+x" = 2
  ∧ specDiffAdditions "+++ b/main.rs\n--- a/main.rs\n+x" = 1
  ∧ diffDeletions "+++ b/main.rs\n--- a/main.rs\n+x" = 1
  ∧ specDiffDeletions "+++ b/main.rs\n--- a/main.rs\n+x" = 0
  ∧ diffAdditions "+++ b/main.rs\n--- a/main.rs\n+x"
      ≠ specDiffAdditions "+++ b/main.rs\n--- a/main.rs\n+x"
  ∧ diffDeletions "+++ b/main.rs\n--- a/main.rs\n+x"
      ≠ specDiffDeletions "+++ b/main.rs\n--- a/main.rs\n+x" := by
  decide

/-- C1, amended: `compute` returns added = the number of lines whose first
character is `+` with NO exclusion of the `+++` header line, removed = the
number of lines whose first character is `-` with NO exclusion of the
`---` header line, and the report contains the box line
`Changed <added+removed> lines (<added> additions, <removed> deletions)`. -/
theorem C1_amended :
    ∀ (patch : String) (review : Except String String) (b : OutputBuffer),
    diffAdditions patch = ((rustLines patch).filter fun l => firstCharIs l '+').length
  ∧ diffDeletions patch = ((rustLines patch).filter fun l => firstCharIs l '-').length
  ∧ ∃ rest, (analyze_patch patch review b).content
      = b.content
        ++ boxStr ("Changed " ++ toString (diffAdditions patch + diffDeletions patch)
            ++ " lines (" ++ toString (diffAdditions patch) ++ " additions, "
            ++ toString (diffDeletions patch) ++ " deletions)")
        ++ rest := by
  intro patch review b
  refine ⟨rfl, rfl, ?_⟩
  obtain ⟨t, ht⟩ := analyze_patch_head patch review b
  refine ⟨t, ?_⟩
  rw [ht]
  simp [metricsLine, String.append_assoc]

/-- C2, counterexample: with PR metadata resolving but the file-list fetch
failing, `get_pr_details` propagates the error (`?`) instead of degrading,
and the request produces the fixed error string, not a report. -/
theorem C2_counterexample :
    get_pr_details (Except.ok sampleDetail) (Except.error "files fetch failed")
        (Except.ok ([] : List Comment))
      = Except.error "files fetch failed"
  ∧ runPrRequest (Except.ok sampleDetail) (Except.error "files fetch failed")
        (Except.ok ([] : List Comment)) noReviews
      = "Error fetching PR details." :=
  ⟨rfl, rfl⟩

/-- C2, amended: failure of ANY of the three fetches (PR metadata, file
list, comments) is fatal for the request: `get_pr_details` succeeds exactly
when all three fetches succeed, and any fetch error makes the request
produce the fixed error string instead of a rendered report. -/
theorem C2_amended :
    ∀ (prFetch : Except String PullRequestDetail)
      (filesFetch : Except String (List FileChange))
      (commentsFetch : Except String (List Comment)),
    ((get_pr_details prFetch filesFetch commentsFetch).isOk
        = (prFetch.isOk && filesFetch.isOk && commentsFetch.isOk))
  ∧ (∀ (reviews : String → Except String String) (e : String),
      get_pr_details prFetch filesFetch commentsFetch = Except.error e →
      runPrRequest prFetch filesFetch commentsFetch reviews = "Error fetching PR details.") := by
  intro pf ff cf
  constructor
  · cases pf <;> cases ff <;> cases cf <;> rfl
  · intro reviews e h
    unfold runPrRequest
    rw [h]

/-- C2, witness for the amended theorem at a concrete input. -/
theorem C2_witness :
    runPrRequest (Except.ok sampleDetail) (Except.error "files fetch failed")
      (Except.ok ([] : List Comment)) noReviews = "Error fetching PR details." :=
  (C2_amended (Except.ok sampleDetail) (Except.error "files fetch failed")
    (Except.ok ([] : List Comment))).2 noReviews "files fetch failed" rfl

/-- C3: each of the 13 heuristic rules is independently triggerable — for
each rule a minimal patch text produces exactly that rule's finding and no
other — and for every patch the findings list is a sublist of the fixed
rule-order message list, so findings are always emitted in rule order. -/
theorem C3_rules_independent_ordered :
    heuristicFindings "TODO" = [msgTodo]
  ∧ heuristicFindings "println!" = [msgDebug]
  ∧ heuristicFindings "unwrap()" = [msgUnwrap]
  ∧ heuristicFindings "expect(" = [msgExpect]
  ∧ heuristicFindings "panic!" = [msgPanic]
  ∧ heuristicFindings "clone()" = [msgClone]
  ∧ heuristicFindings "Box::new" = [msgBox]
  ∧ heuristicFindings "Vec::new()" = [msgVecCapacity]
  ∧ heuristicFindings "Mutex" = [msgMutex]
  ∧ heuristicFindings ".await Vec" = [msgAwaitVec]
  ∧ heuristicFindings "unsafe" = [msgSafety]
  ∧ heuristicFindings "as_ptr" = [msgRawPtr]
  ∧ heuristicFindings "fn f()" = [msgTests]
  ∧ ∀ patch : String, List.Sublist (heuristicFindings patch) ruleMessages := by
  refine ⟨by decide, by decide, by decide, by decide, by decide, by decide, by decide,
    by decide, by decide, by decide, by decide, by decide, by decide, ?_⟩
  intro patch
  have hrw : ruleMessages
      = [msgTodo] ++ [msgDebug] ++ [msgUnwrap] ++ [msgExpect] ++ [msgPanic] ++ [msgClone]
        ++ [msgBox] ++ [msgVecCapacity] ++ [msgMutex] ++ [msgAwaitVec] ++ [msgSafety]
        ++ [msgRawPtr] ++ [msgTests] := rfl
  rw [hrw]
  unfold heuristicFindings
  exact ((((((((((((ite_singleton_sublist _ _).append
    (ite_singleton_sublist _ _)).append (ite_singleton_sublist _ _)).append
    (ite_singleton_sublist _ _)).append (ite_singleton_sublist _ _)).append
    (ite_singleton_sublist _ _)).append (ite_singleton_sublist _ _)).append
    (ite_singleton_sublist _ _)).append (ite_singleton_sublist _ _)).append
    (ite_singleton_sublist _ _)).append (ite_singleton_sublist _ _)).append
    (ite_singleton_sublist _ _)).append (ite_singleton_sublist _ _)

set_option maxRecDepth 100000 in
/-- C4: partitioning the narrative text `"## Summary\nfoo\n## Feedback\n- bar"`
yields the Summary section with body `"foo"` and the Feedback section with
body `"- bar"`, each body trimmed of leading and trailing whitespace before
being boxed. -/
theorem C4_narrative_partition :
    appendNarrative "## Summary\nfoo\n## Feedback\n- bar" OutputBuffer.new
      = ((((OutputBuffer.new.add_section "Change Summary").add_box_content
          "foo").add_section "AI Suggestions").add_box_content "- bar")
  ∧ rustSplit "## Summary\nfoo\n## Feedback\n- bar" "## "
      = ["", "Summary\nfoo\n", "Feedback\n- bar"]
  ∧ rustTrim (rustReplace "Summary\nfoo\n" "Summary\n" "") = "foo"
  ∧ rustTrim (rustReplace "Feedback\n- bar" "Feedback\n" "") = "- bar" := by
  decide

/-- C5: when the narrative-review call fails, `analyze_patch` proceeds
without narrative sections and never fails: the result is exactly the
diff-metrics box followed by the heuristic findings, appended to the
untouched previous content. -/
theorem C5_review_failure_nonfatal : ∀ (patch e : String) (b : OutputBuffer),
    analyze_patch patch (Except.error e) b
      = appendHeuristics patch (b.add_box_content (metricsLine patch))
  ∧ (analyze_patch patch (Except.error e) b).content
      = b.content ++ boxStr (metricsLine patch) ++ heuristicsStr patch := by
  intro patch e b
  refine ⟨rfl, ?_⟩
  show (appendHeuristics patch (b.add_box_content (metricsLine patch))).content = _
  rw [appendHeuristics_content, add_box_content_content]

/-- C6: the report document is append-only — every append operation leaves
the previously accumulated content unchanged as a prefix of the new
content — and rendering is the pure projection of the content, so reading
it twice yields identical output and mutates nothing. -/
theorem C6_append_only_render_pure :
    (∀ (b : OutputBuffer) (l : String), ∃ t, (b.add_line l).content = b.content ++ t)
  ∧ (∀ (b : OutputBuffer) (ch : Char) (n : Nat),
      ∃ t, (b.add_separator ch n).content = b.content ++ t)
  ∧ (∀ (b : OutputBuffer) (s : String), ∃ t, (b.add_header s).content = b.content ++ t)
  ∧ (∀ (b : OutputBuffer) (s : String), ∃ t, (b.add_section s).content = b.content ++ t)
  ∧ (∀ (b : OutputBuffer) (s : String), ∃ t, (b.add_box_content s).content = b.content ++ t)
  ∧ (∀ (b : OutputBuffer) (s : String), ∃ t, (b.add_diff_header s).content = b.content ++ t)
  ∧ (∀ (b : OutputBuffer) (s : String), ∃ t, (b.add_diff_content s).content = b.content ++ t)
  ∧ (∀ b : OutputBuffer, ∃ t, b.add_diff_separator.content = b.content ++ t)
  ∧ (∀ b : OutputBuffer, b.render = b.render ∧ b.render = b.content) :=
  ⟨fun b l => ⟨_, add_line_content b l⟩,
   fun b ch n => ⟨_, add_separator_content b ch n⟩,
   fun b s => ⟨_, add_header_content b s⟩,
   fun b s => ⟨_, add_section_content b s⟩,
   fun b s => ⟨_, add_box_content_content b s⟩,
   fun b s => ⟨_, add_diff_header_content b s⟩,
   fun b s => ⟨_, add_diff_content_content b s⟩,
   fun b => ⟨_, add_diff_separator_content b⟩,
   fun _ => ⟨rfl, rfl⟩⟩

/-- C7: a patch containing `TODO` (or `FIXME`) yields the hygiene finding
urging resolution before merging, and a patch containing neither yields no
such finding. -/
theorem C7_todo_hygiene : ∀ patch : String,
    msgTodo ∈ heuristicFindings patch
      ↔ (rustContains patch "TODO" = true ∨ rustContains patch "FIXME" = true) := by
  intro patch
  have h₂ : msgTodo ≠ msgDebug := by decide
  have h₃ : msgTodo ≠ msgUnwrap := by decide
  have h₄ : msgTodo ≠ msgExpect := by decide
  have h₅ : msgTodo ≠ msgPanic := by decide
  have h₆ : msgTodo ≠ msgClone := by decide
  have h₇ : msgTodo ≠ msgBox := by decide
  have h₈ : msgTodo ≠ msgVecCapacity := by decide
  have h₉ : msgTodo ≠ msgMutex := by decide
  have h₁₀ : msgTodo ≠ msgAwaitVec := by decide
  have h₁₁ : msgTodo ≠ msgSafety := by decide
  have h₁₂ : msgTodo ≠ msgRawPtr := by decide
  have h₁₃ : msgTodo ≠ msgTests := by decide
  simp [heuristicFindings, mem_ite_singleton, List.mem_append,
    h₂, h₃, h₄, h₅, h₆, h₇, h₈, h₉, h₁₀, h₁₁, h₁₂, h₁₃]

/-! ### A full string-level characterization of the rendered report -/

theorem foldl_content {α : Type} (step : OutputBuffer → α → OutputBuffer) (g : α → String)
    (hstep : ∀ (b : OutputBuffer) (x : α), (step b x).content = b.content ++ g x) :
    ∀ (l : List α) (b : OutputBuffer),
      (l.foldl step b).content = b.content ++ concatStrs (l.map g) := by
  intro l
  induction l with
  | nil => intro b; simp [concatStrs, String.append_empty]
  | cons x xs ih => intro b; simp [ih, hstep, concatStrs, String.append_assoc]

/-- The box text of the Description section, per the branches of the
source. -/
def descBoxText (body : Option String) : String :=
  match body with
  | some s => if !(rustTrim s).data.isEmpty then s else "No description provided."
  | none => "No description provided."

theorem descriptionPart_content (body : Option String) (b : OutputBuffer) :
    (descriptionPart body b).content = b.content ++ boxStr (descBoxText body) := by
  cases body with
  | none => simp [descriptionPart, descBoxText]
  | some s =>
    by_cases h : (rustTrim s).data.isEmpty <;> simp [descriptionPart, descBoxText, h]

/-- The text one piece of the split narrative contributes. -/
def narrativePieceStr (piece : String) : String :=
  if rustStartsWith piece "Summary" then
    sectionStr "Change Summary" ++ boxStr (rustTrim (rustReplace piece "Summary\n" ""))
  else if rustStartsWith piece "Feedback" then
    sectionStr "AI Suggestions" ++ boxStr (rustTrim (rustReplace piece "Feedback\n" ""))
  else if rustStartsWith piece "Additional Context Needed" then
    sectionStr "Additional Context Needed"
      ++ boxStr (rustTrim (rustReplace piece "Additional Context Needed\n" ""))
  else ""

/-- The text the whole narrative part contributes. -/
def narrativeStr (review : String) : String :=
  concatStrs ((rustSplit review "## ").map narrativePieceStr)

theorem appendNarrative_content (review : String) (b : OutputBuffer) :
    (appendNarrative review b).content = b.content ++ narrativeStr review := by
  unfold appendNarrative narrativeStr
  refine foldl_content _ narrativePieceStr (fun b piece => ?_) _ b
  by_cases h₁ : rustStartsWith piece "Summary" = true
  · simp [h₁, narrativePieceStr, String.append_assoc]
  · by_cases h₂ : rustStartsWith piece "Feedback" = true
    · simp [h₁, h₂, narrativePieceStr, String.append_assoc]
    · by_cases h₃ : rustStartsWith piece "Additional Context Needed" = true
      · simp [h₁, h₂, h₃, narrativePieceStr, String.append_assoc]
      · simp [h₁, h₂, h₃, narrativePieceStr, String.append_empty]

/-- The text `analyze_patch` appends: the metrics box, the narrative
sections when the review call succeeded, then the heuristic findings. -/
def analyzeStr (patch : String) (review : Except String String) : String :=
  boxStr (metricsLine patch)
    ++ (match review with
        | Except.ok r => narrativeStr r
        | Except.error _ => "")
    ++ heuristicsStr patch

theorem analyze_patch_content (patch : String) (review : Except String String)
    (b : OutputBuffer) :
    (analyze_patch patch review b).content = b.content ++ analyzeStr patch review := by
  unfold analyze_patch analyzeStr
  cases review with
  | ok r =>
    rw [appendHeuristics_content, appendNarrative_content, add_box_content_content]
    simp [String.append_assoc]
  | error e =>
    rw [appendHeuristics_content, add_box_content_content]
    simp [String.append_assoc, String.append_empty]

/-- The text the per-patch diff/analysis loop appends. -/
def fileDiffLoopStr (reviews : String → Except String String) :
    List FileChange → Bool → String
  | [], _ => ""
  | f :: rest, first =>
    match f.patch with
    | none => fileDiffLoopStr reviews rest first
    | some patch =>
      (if !first then diffSepStr else "") ++ diffHeaderStr f.filename
        ++ diffContentStr patch ++ sectionStr "Static Analysis"
        ++ analyzeStr patch (reviews patch) ++ fileDiffLoopStr reviews rest false

theorem fileDiffLoop_content (reviews : String → Except String String) :
    ∀ (files : List FileChange) (first : Bool) (b : OutputBuffer),
      (fileDiffLoop reviews files first b).content
        = b.content ++ fileDiffLoopStr reviews files first := by
  intro files
  induction files with
  | nil => intro first b; simp [fileDiffLoop, fileDiffLoopStr, String.append_empty]
  | cons f rest ih =>
    intro first b
    cases hp : f.patch with
    | none => simp [fileDiffLoop, fileDiffLoopStr, hp, ih first b]
    | some patch =>
      have hif : (if !first then b.add_diff_separator else b).content
          = b.content ++ (if !first then diffSepStr else "") := by
        by_cases hf : first = true <;> simp [hf, String.append_empty]
      simp only [fileDiffLoop, fileDiffLoopStr, hp]
      rw [ih false, analyze_patch_content, add_section_content, add_diff_content_content,
        add_diff_header_content, hif]
      simp [String.append_assoc]

/-- The text the `Modified Files` block appends. -/
def filesSectionStr (files : List FileChange)
    (reviews : String → Except String String) : String :=
  if files.isEmpty then
    sectionStr "Modified Files" ++ boxStr "No files modified in this PR."
  else
    sectionStr "Modified Files" ++ lineStr fileTableHeaderLine
      ++ lineStr ("┃  " ++ rustRepeatStr "─" 80)
      ++ concatStrs (files.map fun f => lineStr (fileRowLine f))
      ++ diffSepStr ++ fileDiffLoopStr reviews files true

theorem filesSection_content (files : List FileChange)
    (reviews : String → Except String String) (b : OutputBuffer) :
    (filesSection files reviews b).content = b.content ++ filesSectionStr files reviews := by
  unfold filesSection filesSectionStr
  by_cases h : files.isEmpty
  · simp [h, String.append_assoc]
  · rw [if_neg h, if_neg h, fileDiffLoop_content, add_diff_separator_content,
      foldl_add_line_content]
    simp [String.append_assoc]

/-- The text the comments block appends. -/
def commentsStr (comments : List Comment) : String :=
  if comments.isEmpty then boxStr "No comments found for this PR."
  else concatStrs (comments.map fun c => sectionStr (commentSectionTitle c) ++ boxStr c.body)

theorem display_comments_content (comments : List Comment) (b : OutputBuffer) :
    (display_comments comments b).content = b.content ++ commentsStr comments := by
  unfold display_comments commentsStr
  by_cases h : comments.isEmpty
  · simp [h]
  · rw [if_neg h, if_neg h]
    refine foldl_content _ _ (fun b c => ?_) comments b
    rw [add_box_content_content, add_section_content]
    simp [String.append_assoc]

/-- The whole report of one PR-detail request, as one string appended to
the previous content (grouped to the right for convenient splitting). -/
theorem display_pr_details_content (details : PullRequestDetail) (comments : List Comment)
    (reviews : String → Except String String) (b : OutputBuffer) :
    (display_pr_details details comments reviews b).content
      = b.content ++ (headerStr details.title ++ (sectionStr "Description"
        ++ (boxStr (descBoxText details.body) ++ (filesSectionStr details.files reviews
        ++ (diffSepStr ++ (lineStr "" ++ (headerStr "Comments"
        ++ (commentsStr comments ++ (diffSepStr ++ lineStr ""))))))))) := by
  unfold display_pr_details
  rw [add_line_content, add_diff_separator_content, display_comments_content,
    add_header_content, add_line_content, add_diff_separator_content,
    filesSection_content, descriptionPart_content, add_section_content, add_header_content]
  simp [String.append_assoc]

/-- Splitting the diff/analysis loop text at a patched file: its diff
header, diff body, `Static Analysis` section line and metrics box occur
contiguously. -/
theorem fileDiffLoopStr_split (reviews : String → Except String String)
    {f : FileChange} {patch : String} :
    ∀ (files : List FileChange) (first : Bool), f ∈ files → f.patch = some patch →
      ∃ u v, fileDiffLoopStr reviews files first
        = u ++ (diffHeaderStr f.filename ++ diffContentStr patch
            ++ sectionStr "Static Analysis" ++ boxStr (metricsLine patch)) ++ v := by
  intro files
  induction files with
  | nil => intro first h; cases h
  | cons g rest ih =>
    intro first hmem hp
    rcases List.mem_cons.mp hmem with rfl | hr
    · refine ⟨if !first then diffSepStr else "",
        (match reviews patch with
          | Except.ok r => narrativeStr r
          | Except.error _ => "") ++ heuristicsStr patch
          ++ fileDiffLoopStr reviews rest false, ?_⟩
      simp only [fileDiffLoopStr, hp, analyzeStr]
      simp [String.append_assoc]
    · cases hg : g.patch with
      | none =>
        obtain ⟨u, v, huv⟩ := ih first hr hp
        exact ⟨u, v, by simp only [fileDiffLoopStr, hg]; exact huv⟩
      | some q =>
        obtain ⟨u, v, huv⟩ := ih false hr hp
        refine ⟨(if !first then diffSepStr else "") ++ diffHeaderStr g.filename
          ++ diffContentStr q ++ sectionStr "Static Analysis"
          ++ analyzeStr q (reviews q) ++ u, v, ?_⟩
        simp only [fileDiffLoopStr, hg]
        rw [huv]
        simp [String.append_assoc]

/-- C8: every `FileChange` of a PR with a nonempty file list gets a row of
the summary table (filename, status, additions, deletions); the
diff/analysis loop behaves identically on the file list and on its
restriction to files whose patch is present (patchless files are skipped
for analysis); and every file whose patch is present gets a contiguous
diff header, diff body, `Static Analysis` section and diff-metrics box. -/
theorem C8_table_rows_and_patch_analysis :
    (∀ (details : PullRequestDetail) (comments : List Comment)
        (reviews : String → Except String String) (b : OutputBuffer) (f : FileChange),
        f ∈ details.files →
        Appears (lineStr (fileRowLine f)) (display_pr_details details comments reviews b))
  ∧ (∀ (reviews : String → Except String String) (files : List FileChange)
        (first : Bool) (b : OutputBuffer),
        fileDiffLoop reviews files first b
          = fileDiffLoop reviews (files.filter fun f => f.patch.isSome) first b)
  ∧ (∀ (details : PullRequestDetail) (comments : List Comment)
        (reviews : String → Except String String) (b : OutputBuffer) (f : FileChange)
        (patch : String),
        f ∈ details.files → f.patch = some patch →
        Appears (diffHeaderStr f.filename ++ diffContentStr patch
          ++ sectionStr "Static Analysis" ++ boxStr (metricsLine patch))
          (display_pr_details details comments reviews b)) := by
  refine ⟨?_, fileDiffLoop_filterEq, ?_⟩
  · intro details comments reviews b f hf
    have hne : ¬(details.files.isEmpty = true) := by
      rcases hfiles : details.files with _ | ⟨g, rest⟩ <;> simp [hfiles] at hf ⊢
    obtain ⟨u, v, huv⟩ := concatStrs_mem (fun f => lineStr (fileRowLine f)) hf
    refine ⟨b.content ++ (headerStr details.title ++ (sectionStr "Description"
      ++ (boxStr (descBoxText details.body) ++ (sectionStr "Modified Files"
      ++ (lineStr fileTableHeaderLine ++ (lineStr ("┃  " ++ rustRepeatStr "─" 80) ++ u)))))),
      v ++ (diffSepStr ++ (fileDiffLoopStr reviews details.files true
      ++ (diffSepStr ++ (lineStr "" ++ (headerStr "Comments" ++ (commentsStr comments
      ++ (diffSepStr ++ lineStr ""))))))), ?_⟩
    rw [display_pr_details_content]
    unfold filesSectionStr
    rw [if_neg hne, huv]
    simp [String.append_assoc]
  · intro details comments reviews b f patch hf hp
    have hne : ¬(details.files.isEmpty = true) := by
      rcases hfiles : details.files with _ | ⟨g, rest⟩ <;> simp [hfiles] at hf ⊢
    obtain ⟨u, v, huv⟩ := fileDiffLoopStr_split reviews details.files true hf hp
    refine ⟨b.content ++ (headerStr details.title ++ (sectionStr "Description"
      ++ (boxStr (descBoxText details.body) ++ (sectionStr "Modified Files"
      ++ (lineStr fileTableHeaderLine ++ (lineStr ("┃  " ++ rustRepeatStr "─" 80)
      ++ (concatStrs (details.files.map fun f => lineStr (fileRowLine f))
      ++ (diffSepStr ++ u)))))))),
      v ++ (diffSepStr ++ (lineStr "" ++ (headerStr "Comments" ++ (commentsStr comments
      ++ (diffSepStr ++ lineStr ""))))), ?_⟩
    rw [display_pr_details_content]
    unfold filesSectionStr
    rw [if_neg hne, huv]
    simp [String.append_assoc]

/-- C8, witness: in the report for a PR with one patched file, the file's
table row and its diff/analysis block both appear. -/
theorem C8_witness :
    Appears (lineStr (fileRowLine sampleFile))
      (display_pr_details sampleDetailWithFile [] noReviews OutputBuffer.new)
  ∧ Appears (diffHeaderStr sampleFile.filename ++ diffContentStr "+x"
      ++ sectionStr "Static Analysis" ++ boxStr (metricsLine "+x"))
      (display_pr_details sampleDetailWithFile [] noReviews OutputBuffer.new) :=
  ⟨C8_table_rows_and_patch_analysis.1 sampleDetailWithFile [] noReviews OutputBuffer.new
      sampleFile (by decide),
   C8_table_rows_and_patch_analysis.2.2 sampleDetailWithFile [] noReviews OutputBuffer.new
      sampleFile "+x" (by decide) rfl⟩

/-- C9: empty states are labeled — an empty comment list produces the
`No comments found for this PR.` box and an empty file list the
`No files modified in this PR.` box — and a non-empty comment list
produces, per comment in list order, a section naming the author and
timestamp followed by the boxed comment body. -/
theorem C9_labeled_empty_states :
    (∀ (details : PullRequestDetail) (reviews : String → Except String String)
        (b : OutputBuffer),
        Appears (boxStr "No comments found for this PR.")
          (display_pr_details details [] reviews b))
  ∧ (∀ (details : PullRequestDetail) (comments : List Comment)
        (reviews : String → Except String String) (b : OutputBuffer),
        details.files = [] →
        Appears (boxStr "No files modified in this PR.")
          (display_pr_details details comments reviews b))
  ∧ (∀ (comments : List Comment) (b : OutputBuffer), comments ≠ [] →
        (display_comments comments b).content
          = b.content
            ++ concatStrs (comments.map fun c =>
                sectionStr (commentSectionTitle c) ++ boxStr c.body))
  ∧ (∀ (details : PullRequestDetail) (comments : List Comment)
        (reviews : String → Except String String) (b : OutputBuffer) (c : Comment),
        c ∈ comments →
        Appears (sectionStr (commentSectionTitle c) ++ boxStr c.body)
          (display_pr_details details comments reviews b)) := by
  refine ⟨?_, ?_, ?_, ?_⟩
  · intro details reviews b
    refine ⟨b.content ++ (headerStr details.title ++ (sectionStr "Description"
      ++ (boxStr (descBoxText details.body) ++ (filesSectionStr details.files reviews
      ++ (diffSepStr ++ (lineStr "" ++ headerStr "Comments")))))),
      diffSepStr ++ lineStr "", ?_⟩
    rw [display_pr_details_content]
    have hcs : commentsStr [] = boxStr "No comments found for this PR." := rfl
    rw [hcs]
    simp [String.append_assoc]
  · intro details comments reviews b hfiles
    refine ⟨b.content ++ (headerStr details.title ++ (sectionStr "Description"
      ++ (boxStr (descBoxText details.body) ++ sectionStr "Modified Files"))),
      diffSepStr ++ (lineStr "" ++ (headerStr "Comments" ++ (commentsStr comments
      ++ (diffSepStr ++ lineStr "")))), ?_⟩
    rw [display_pr_details_content, hfiles]
    have hfs : filesSectionStr [] reviews
        = sectionStr "Modified Files" ++ boxStr "No files modified in this PR." := rfl
    rw [hfs]
    simp [String.append_assoc]
  · intro comments b hne
    rw [display_comments_content]
    unfold commentsStr
    rw [if_neg (by simpa using hne)]
  · intro details comments reviews b c hc
    have hne : ¬(comments.isEmpty = true) := by
      rcases hcs : comments with _ | ⟨d, rest⟩ <;> simp [hcs] at hc ⊢
    obtain ⟨u, v, huv⟩ := concatStrs_mem
      (fun c => sectionStr (commentSectionTitle c) ++ boxStr c.body) hc
    refine ⟨b.content ++ (headerStr details.title ++ (sectionStr "Description"
      ++ (boxStr (descBoxText details.body) ++ (filesSectionStr details.files reviews
      ++ (diffSepStr ++ (lineStr "" ++ (headerStr "Comments" ++ u))))))),
      v ++ (diffSepStr ++ lineStr ""), ?_⟩
    rw [display_pr_details_content]
    unfold commentsStr
    rw [if_neg hne, huv]
    simp [String.append_assoc]

/-- C9, witness: with one comment and no files, the no-files box and the
comment's section-plus-body block both appear; and the comments block of a
one-comment list is exactly the section/body sequence. -/
theorem C9_witness :
    Appears (boxStr "No files modified in this PR.")
      (display_pr_details sampleDetail [sampleComment] noReviews OutputBuffer.new)
  ∧ Appears (sectionStr (commentSectionTitle sampleComment) ++ boxStr sampleComment.body)
      (display_pr_details sampleDetail [sampleComment] noReviews OutputBuffer.new)
  ∧ (display_comments [sampleComment] OutputBuffer.new).content
      = OutputBuffer.new.content
        ++ concatStrs ([sampleComment].map fun c =>
            sectionStr (commentSectionTitle c) ++ boxStr c.body) :=
  ⟨C9_labeled_empty_states.2.1 sampleDetail [sampleComment] noReviews OutputBuffer.new rfl,
   C9_labeled_empty_states.2.2.2 sampleDetail [sampleComment] noReviews OutputBuffer.new
     sampleComment (by decide),
   C9_labeled_empty_states.2.2.1 [sampleComment] OutputBuffer.new (by decide)⟩

/-- C10: when the PR body is absent or whitespace-only the Description
section's box holds exactly `No description provided.`, and otherwise it
holds the body text, in both cases directly after the title header and the
`Description` section line. -/
theorem C10_description_placeholder :
    ∀ (details : PullRequestDetail) (comments : List Comment)
      (reviews : String → Except String String) (b : OutputBuffer),
      ((details.body = none ∨ ∃ s, details.body = some s ∧ rustTrim s = "") →
        ∃ rest, (display_pr_details details comments reviews b).content
          = b.content ++ headerStr details.title ++ sectionStr "Description"
            ++ boxStr "No description provided." ++ rest)
    ∧ (∀ s, details.body = some s → rustTrim s ≠ "" →
        ∃ rest, (display_pr_details details comments reviews b).content
          = b.content ++ headerStr details.title ++ sectionStr "Description"
            ++ boxStr s ++ rest) := by
  intro details comments reviews b
  constructor
  · intro h
    have hdesc : descBoxText details.body = "No description provided." := by
      rcases h with hnone | ⟨s, hsome, hs⟩
      · rw [hnone]; rfl
      · rw [hsome]
        have hemp : (rustTrim s).data.isEmpty = true := by rw [hs]; rfl
        simp [descBoxText, hemp]
    refine ⟨filesSectionStr details.files reviews ++ (diffSepStr ++ (lineStr ""
      ++ (headerStr "Comments" ++ (commentsStr comments ++ (diffSepStr ++ lineStr ""))))), ?_⟩
    rw [display_pr_details_content, hdesc]
    simp [String.append_assoc]
  · intro s hsome hne
    have hemp : (rustTrim s).data.isEmpty = false := by
      cases hdata : (rustTrim s).data with
      | nil => exact absurd (show rustTrim s = "" from by
          have hmk : rustTrim s = ⟨(rustTrim s).data⟩ := rfl
          rw [hmk, hdata]) hne
      | cons c cs => rfl
    have hdesc : descBoxText details.body = s := by
      rw [hsome]; simp [descBoxText, hemp]
    refine ⟨filesSectionStr details.files reviews ++ (diffSepStr ++ (lineStr ""
      ++ (headerStr "Comments" ++ (commentsStr comments ++ (diffSepStr ++ lineStr ""))))), ?_⟩
    rw [display_pr_details_content, hdesc]
    simp [String.append_assoc]

/-- C10, witness: at a PR without a body the placeholder box appears after
the header and Description section, and at a PR with body `hello` the body
box appears there. -/
theorem C10_witness :
    (∃ rest, (display_pr_details sampleDetail [] noReviews OutputBuffer.new).content
      = OutputBuffer.new.content ++ headerStr sampleDetail.title ++ sectionStr "Description"
        ++ boxStr "No description provided." ++ rest)
  ∧ (∃ rest, (display_pr_details sampleDetailWithBody [] noReviews OutputBuffer.new).content
      = OutputBuffer.new.content ++ headerStr sampleDetailWithBody.title
        ++ sectionStr "Description" ++ boxStr "hello" ++ rest) :=
  ⟨(C10_description_placeholder sampleDetail [] noReviews OutputBuffer.new).1 (Or.inl rfl),
   (C10_description_placeholder sampleDetailWithBody [] noReviews OutputBuffer.new).2
     "hello" rfl (by decide)⟩

end Rubber
